import Mathlib

/-!
Shallow embedding of the catfishAntigravity2API repository
(`src/server.js`, the express entry point, and `src/utils/utils.js`),
together with theorems settling the specification claims about it.

JavaScript strings are modelled as Lean `String` (all operations used by the
code are ASCII-safe, so code units and characters coincide); JS `undefined`
for an optional value is modelled as `Option.none`; object mutation
(the tool-schema adapter deletes a key on its input) is modelled by returning
the post-call state of the mutated argument explicitly.
-/

namespace CatfishAntigravity

/-- Containment of one character list in another. -/
def listInfixOf (pat l : List Char) : Bool := l.tails.any (fun t => pat.isPrefixOf t)

/-- JS `String.prototype.includes`: substring containment. -/
def jsIncludes (s pat : String) : Bool := listInfixOf pat.data s.data

/-- JS truthiness of a possibly-absent string: `undefined` and `""` are falsy. -/
def strTruthy : Option String → Bool
  | none => false
  | some s => s != ""

/-- JS `String.prototype.trim` on the character list: drop whitespace at both ends. -/
def trimChars (l : List Char) : List Char :=
  ((l.dropWhile Char.isWhitespace).reverse.dropWhile Char.isWhitespace).reverse

/-- JS `String.prototype.trim`. -/
def jsTrim (s : String) : String := String.mk (trimChars s.data)

/-- JS `Array.prototype.join(sep)`. -/
def joinWith (sep : String) : List String → String
  | [] => ""
  | [x] => x
  | x :: y :: xs => x ++ sep ++ joinWith sep (y :: xs)

/-- JS `String.prototype.slice(n)` (code units coincide with characters on the
ASCII values used by the server). -/
def jsSlice (s : String) (n : Nat) : String := String.mk (s.data.drop n)

/-- JS `String.prototype.startsWith`. -/
def jsStartsWith (s p : String) : Bool := p.data.isPrefixOf s.data

/-! ## Data model: OpenAI-side client messages -/

inductive Role
  | system
  | user
  | assistant
  | tool
deriving DecidableEq

structure ToolCallFunction where
  name : String
  arguments : String
deriving DecidableEq

structure ToolCall where
  id : String
  function : ToolCallFunction
deriving DecidableEq

inductive ContentItem
  | text (text : String)
  | image_url (url : String)
  | other
deriving DecidableEq

inductive MsgContent
  | str (s : String)
  | arr (items : List ContentItem)
deriving DecidableEq

/-- Assistant/tool message content is a string in the OpenAI chat schema; this
models JS `message.content || ''` on that domain (an absent or empty content
gives `""`). -/
def MsgContent.orEmpty : MsgContent → String
  | .str s => s
  | .arr _ => ""

structure ClientMessage where
  role : Role
  content : MsgContent
  tool_calls : List ToolCall
  tool_call_id : String
  name : Option String
deriving DecidableEq

/-! ## Data model: upstream (Antigravity) turns -/

structure FunctionCallPart where
  id : String
  name : String
deriving DecidableEq

structure InlineData where
  mimeType : String
  data : String
deriving DecidableEq

inductive Part
  | text (text : String)
  | inlineData (d : InlineData)
  | functionCall (fc : FunctionCallPart)
  | functionResponse (name : String) (content : String)
deriving DecidableEq

inductive TurnRole
  | user
  | model
deriving DecidableEq

structure Turn where
  role : TurnRole
  parts : List Part
deriving DecidableEq

/-! ## utils.js: content extraction -/

/-- JS regex `\w`. -/
def isWordChar (c : Char) : Bool := c.isAlphanum || c == '_'

/-- The regex `^data:image\/(\w+);base64,(.+)$` used by
`extractImagesFromContent` (`.` does not match a newline, so a payload
containing one fails the match). Returns `(format, base64Data)` on a match. -/
def matchDataImageUri (url : String) : Option (String × String) :=
  let pre := "data:image/".data
  let u := url.data
  if pre.isPrefixOf u then
    let rest := u.drop pre.length
    let fmt := rest.takeWhile isWordChar
    let rest2 := rest.drop fmt.length
    let mid := ";base64,".data
    if fmt != [] && mid.isPrefixOf rest2 then
      let dat := rest2.drop mid.length
      if dat != [] && dat.all (fun c => c != '\n') then
        some (String.mk fmt, String.mk dat)
      else none
    else none
  else none

structure Extracted where
  text : String
  images : List Part
deriving DecidableEq

/-- One iteration of the loop in `extractImagesFromContent`: `text` items are
concatenated, matching `image_url` items become inline-data parts, everything
else is skipped. -/
def extractStep (acc : Extracted) : ContentItem → Extracted
  | .text t => { acc with text := acc.text ++ t }
  | .image_url url =>
      match matchDataImageUri url with
      | some (format, base64Data) =>
          { acc with images :=
              acc.images ++ [Part.inlineData ⟨"image/" ++ format, base64Data⟩] }
      | none => acc
  | .other => acc

/-- `extractImagesFromContent`. -/
def extractImagesFromContent : MsgContent → Extracted
  | .str s => ⟨s, []⟩
  | .arr items => items.foldl extractStep ⟨"", []⟩

/-! ## utils.js: per-role message handlers -/

/-- `handleUserMessage`: push a new user turn, text part first, then images. -/
def handleUserMessage (extracted : Extracted) (antigravityMessages : List Turn) :
    List Turn :=
  antigravityMessages ++ [⟨TurnRole.user, Part.text extracted.text :: extracted.images⟩]

/-- A single-quote character, as written in the tool-call system notes. -/
def sq : String := "\x27"

/-- The textual rendering of one tool call in `handleAssistantMessage`. -/
def toolDescription (tc : ToolCall) : String :=
  "[System Note: Model requested tool " ++ sq ++ tc.function.name ++ sq ++
    " with args: " ++ tc.function.arguments ++ "]"

/-- `handleAssistantMessage`: tool calls are rendered as textual notes joined
by newlines and appended after the message content; an empty or
whitespace-only combined content is replaced by the `"..."` placeholder; the
result is pushed as a new model turn. -/
def handleAssistantMessage (message : ClientMessage)
    (antigravityMessages : List Turn) : List Turn :=
  let hasToolCalls := message.tool_calls ≠ []
  let content0 := message.content.orEmpty
  let content :=
    if hasToolCalls then
      (if content0 ≠ "" then content0 ++ "\n" else content0) ++
        joinWith "\n" (message.tool_calls.map toolDescription)
    else content0
  let parts : List Part :=
    if content ≠ "" ∧ jsTrim content ≠ "" then [Part.text content]
    else [Part.text "..."]
  antigravityMessages ++ [⟨TurnRole.model, parts⟩]

/-- The inner loop of the backward scan: first `functionCall` part of one turn
whose id matches the `tool_call_id` (the loop breaks at the first match). -/
def scanTurnParts (toolCallId : String) : List Part → Option String
  | [] => none
  | Part.functionCall fc :: rest =>
      if fc.id = toolCallId then some fc.name else scanTurnParts toolCallId rest
  | _ :: rest => scanTurnParts toolCallId rest

/-- The outer loop of the backward scan over (already reversed) turns:
`functionName` starts as the accumulator and the loop stops as soon as it is
truthy (non-empty). -/
def scanLoop (toolCallId : String) : List Turn → String → String
  | [], functionName => functionName
  | t :: rest, functionName =>
      let functionName2 :=
        if t.role = TurnRole.model then
          match scanTurnParts toolCallId t.parts with
          | some n => n
          | none => functionName
        else functionName
      if functionName2 ≠ "" then functionName2
      else scanLoop toolCallId rest functionName2

/-- The backward scan of the tool branch of `openaiMessageToAntigravity`:
iterate `i` from the last accumulated turn down to the first. -/
def scanFunctionName (antigravityMessages : List Turn) (toolCallId : String) :
    String :=
  scanLoop toolCallId antigravityMessages.reverse ""

/-- The `role === "tool"` branch of `openaiMessageToAntigravity`: resolve the
function name (own `name` field if truthy, else backward scan, else the
`"unknown_tool"` sentinel) and push a new user turn with one
`functionResponse` part, never merging into a previous turn. -/
def handleToolMessage (message : ClientMessage)
    (antigravityMessages : List Turn) : List Turn :=
  let name0 := match message.name with | some n => n | none => ""
  let functionName :=
    if name0 ≠ "" then name0
    else scanFunctionName antigravityMessages message.tool_call_id
  antigravityMessages ++
    [⟨TurnRole.user,
      [Part.functionResponse
        (if functionName ≠ "" then functionName else "unknown_tool")
        message.content.orEmpty]⟩]

/-- One iteration of the loop in `openaiMessageToAntigravity`; a role matching
none of the three branches (i.e. `system`) contributes nothing. -/
def translateStep (antigravityMessages : List Turn) (message : ClientMessage) :
    List Turn :=
  match message.role with
  | Role.user =>
      handleUserMessage (extractImagesFromContent message.content) antigravityMessages
  | Role.assistant => handleAssistantMessage message antigravityMessages
  | Role.tool => handleToolMessage message antigravityMessages
  | Role.system => antigravityMessages

/-- `openaiMessageToAntigravity`. -/
def openaiMessageToAntigravity (openaiMessages : List ClientMessage) : List Turn :=
  openaiMessages.foldl translateStep []

/-! ## utils.js: model policy -/

/-- `modelMapping`. -/
def modelMapping (modelName : String) : String :=
  if modelName = "claude-sonnet-4-5-thinking" then "claude-sonnet-4-5"
  else if modelName = "claude-opus-4-5" then "claude-opus-4-5-thinking"
  else if modelName = "gemini-2.5-flash-thinking" then "gemini-2.5-flash"
  else modelName

/-- `isEnableThinking`. -/
def isEnableThinking (modelName : String) : Bool :=
  modelName.endsWith "-thinking" || modelName == "gemini-2.5-pro" ||
    jsStartsWith modelName "gemini-3-pro-" || modelName == "rev19-uic3-1p" ||
    modelName == "gpt-oss-120b-medium"

/-! ## utils.js: tool schema adapter -/

structure ToolParameters where
  /-- The JSON-schema `$schema` key, when present. -/
  schemaField : Option String
  /-- The remaining JSON-schema payload, opaque to the adapter. -/
  rest : String
deriving DecidableEq

structure ToolFunction where
  name : String
  description : String
  parameters : ToolParameters
deriving DecidableEq

structure OpenAITool where
  function : ToolFunction
deriving DecidableEq

structure FunctionDeclaration where
  name : String
  description : String
  parameters : ToolParameters
deriving DecidableEq

structure AntigravityTool where
  functionDeclarations : List FunctionDeclaration
deriving DecidableEq

/-- `convertOpenAIToolsToAntigravity`. The JS `delete
tool.function.parameters.$schema` mutates the caller's own tool objects, so
the embedding returns both the upstream declarations and the post-call state
of the input list (`none` = the input was absent and nothing was touched). -/
def convertOpenAIToolsToAntigravity (openaiTools : Option (List OpenAITool)) :
    List AntigravityTool × Option (List OpenAITool) :=
  match openaiTools with
  | none => ([], none)
  | some tools =>
    if tools.length = 0 then ([], some tools)
    else
      let mutated := tools.map (fun tool =>
        { tool with function :=
            { tool.function with parameters :=
                { tool.function.parameters with schemaField := none } } })
      (mutated.map (fun tool =>
        ⟨[⟨tool.function.name, tool.function.description, tool.function.parameters⟩]⟩),
       some mutated)

/-! ## utils.js: generation config and request assembly -/

structure ConfigDefaults where
  top_p : Int
  top_k : Int
  temperature : Int
  max_tokens : Int
deriving DecidableEq

structure AppConfig where
  defaults : ConfigDefaults
  systemInstruction : Option String
deriving DecidableEq

structure Parameters where
  top_p : Option Int
  top_k : Option Int
  temperature : Option Int
  max_tokens : Option Int
deriving DecidableEq

structure ThinkingConfig where
  includeThoughts : Bool
  thinkingBudget : Nat
deriving DecidableEq

structure GenerationConfig where
  topP : Option Int
  topK : Int
  temperature : Int
  candidateCount : Nat
  maxOutputTokens : Int
  stopSequences : List String
  thinkingConfig : ThinkingConfig
deriving DecidableEq

/-- `generateGenerationConfig` (sampling values are opaque numbers here: the
code only passes them through `??` defaulting). -/
def generateGenerationConfig (parameters : Parameters) (enableThinking : Bool)
    (actualModelName : String) (config : AppConfig) : GenerationConfig :=
  let generationConfig : GenerationConfig :=
    { topP := some (parameters.top_p.getD config.defaults.top_p)
      topK := parameters.top_k.getD config.defaults.top_k
      temperature := parameters.temperature.getD config.defaults.temperature
      candidateCount := 1
      maxOutputTokens := parameters.max_tokens.getD config.defaults.max_tokens
      stopSequences :=
        ["<|user|>", "<|bot|>", "<|context_request|>", "<|endoftext|>", "<|end_of_turn|>"]
      thinkingConfig := ⟨enableThinking, if enableThinking then 1024 else 0⟩ }
  if enableThinking && jsIncludes actualModelName "claude" then
    { generationConfig with topP := none }
  else generationConfig

structure SystemInstruction where
  role : String
  parts : List Part
deriving DecidableEq

structure Token where
  projectId : String
  sessionId : String
deriving DecidableEq

structure UpstreamRequest where
  contents : List Turn
  systemInstruction : SystemInstruction
  tools : List AntigravityTool
  toolConfigMode : String
  generationConfig : GenerationConfig
  sessionId : String
deriving DecidableEq

structure Envelope where
  project : String
  requestId : String
  request : UpstreamRequest
  model : String
  userAgent : String
deriving DecidableEq

/-- `generateRequestBody`. The external `generateRequestId()` value is supplied
as the `requestId` argument. Because the tool schema adapter mutates the
caller's tool list, the result carries both the envelope and the post-call
state of `openaiTools`. -/
def generateRequestBody (openaiMessages : List ClientMessage) (modelName : String)
    (parameters : Parameters) (openaiTools : Option (List OpenAITool))
    (token : Token) (config : AppConfig) (requestId : String) :
    Envelope × Option (List OpenAITool) :=
  let enableThinking := isEnableThinking modelName
  let actualModelName := modelMapping modelName
  let clientSystemMessage := openaiMessages.find? (fun msg => msg.role == Role.system)
  let finalSystemInstruction : Option String :=
    match clientSystemMessage with
    | some msg => some msg.content.orEmpty
    | none => config.systemInstruction
  let converted := convertOpenAIToolsToAntigravity openaiTools
  (⟨token.projectId, requestId,
    ⟨openaiMessageToAntigravity openaiMessages,
     ⟨"user",
      [Part.text (if strTruthy finalSystemInstruction then finalSystemInstruction.getD "" else "")]⟩,
     converted.1, "VALIDATED",
     generateGenerationConfig parameters enableThinking actualModelName config,
     token.sessionId⟩,
    actualModelName, "antigravity"⟩,
   converted.2)

/-! ## server.js: stream chunks and SSE output -/

/-- A streamed delta object: each branch of the streaming callback builds an
object with exactly one field (`content`, `reasoning_content`, `tool_calls`),
and `endStream` writes the empty delta. The upstream `tool_calls` payload is
passed through opaquely by the server, so it is modelled as an opaque value. -/
inductive Delta
  | content (s : String)
  | reasoning_content (s : String)
  | tool_calls (payload : String)
  | empty
deriving DecidableEq

structure Chunk where
  id : String
  object : String
  created : Nat
  model : String
  delta : Delta
  finish_reason : Option String
deriving DecidableEq

/-- `createStreamChunk`. -/
def createStreamChunk (id : String) (created : Nat) (model : String)
    (delta : Delta) (finish_reason : Option String) : Chunk :=
  ⟨id, "chat.completion.chunk", created, model, delta, finish_reason⟩

/-- One SSE write: a `data: <chunk-json>` line or the literal `data: [DONE]`. -/
inductive SSEItem
  | data (chunk : Chunk)
  | done
deriving DecidableEq

/-- `endStream`: terminal chunk with an empty delta and the finish reason,
then the `[DONE]` marker. -/
def endStream (id : String) (created : Nat) (model : String)
    (finish_reason : String) : List SSEItem :=
  [SSEItem.data (createStreamChunk id created model Delta.empty (some finish_reason)),
   SSEItem.done]

/-- An upstream streaming event, classified as the callback does on
`data.type`: `tool_calls`, `thinking`, or anything else (plain text). -/
inductive UpstreamEvent
  | thinking (content : String)
  | text (content : String)
  | tool_calls (payload : String)
deriving DecidableEq

def isToolCallsEvent : UpstreamEvent → Bool
  | .tool_calls _ => true
  | _ => false

/-- The delta built by the streaming callback for one event. -/
def deltaOfEvent : UpstreamEvent → Delta
  | .tool_calls payload => Delta.tool_calls payload
  | .thinking content => Delta.reasoning_content content
  | .text content => Delta.content content

/-- The streaming loop: the invoker calls the callback once per event in
order; the callback writes one chunk and flips `hasToolCall` on tool-call
events. Returns the writes and the final `hasToolCall` flag. -/
def streamLoop (id : String) (created : Nat) (model : String) :
    List UpstreamEvent → Bool → List SSEItem × Bool
  | [], hasToolCall => ([], hasToolCall)
  | e :: rest, hasToolCall =>
      let hasToolCall2 := if isToolCallsEvent e then true else hasToolCall
      let out := streamLoop id created model rest hasToolCall2
      (SSEItem.data (createStreamChunk id created model (deltaOfEvent e) none) :: out.1,
       out.2)

/-- The full streaming success path of `POST /v1/chat/completions` (non-image
models): per-event chunks, then `endStream` with `tool_calls` if any tool-call
delta was seen, else `stop`. -/
def streamResponse (id : String) (created : Nat) (model : String)
    (events : List UpstreamEvent) : List SSEItem :=
  let run := streamLoop id created model events false
  run.1 ++ endStream id created model (if run.2 then "tool_calls" else "stop")

/-! ## server.js: error classification (the catch handler) -/

structure ErrorBody where
  message : String
  type : String
  param : Option String
  code : String
deriving DecidableEq

/-- The status computation of the catch handler: rate-limit/capacity markers
in the message force 429; otherwise a truthy `error.status` is used;
otherwise 500. -/
def classifyStatus (errMsg : String) (errStatus : Option Nat) : Nat :=
  if jsIncludes errMsg "429" || jsIncludes errMsg "capacity" ||
      jsIncludes errMsg "RESOURCE_EXHAUSTED" then 429
  else
    match errStatus with
    | some s => if s ≠ 0 then s else 500
    | none => 500

/-- The `errorResponse` object of the catch handler. -/
def buildErrorResponse (errMsg : String) (status : Nat) : ErrorBody :=
  { message := if errMsg ≠ "" then errMsg else "Internal Server Error"
    type := "server_error"
    param := none
    code := if status = 429 then "rate_limit_exceeded" else "internal_error" }

/-- What the catch handler emits: a JSON error response with a status code, or
raw writes to an open SSE stream. -/
inductive CatchAction
  | jsonError (status : Nat) (body : ErrorBody)
  | sse (item : SSEItem)
deriving DecidableEq

/-- The `catch` handler of `POST /v1/chat/completions`, as written: the whole
body is guarded by `!res.headersSent`; inside, the streaming branch re-checks
the same `res.headersSent` (no write can have happened in between), and only
its then-branch is reachable; the in-band stream-error branch follows it in
the source and is kept here verbatim. -/
def catchHandler (headersSent stream : Bool) (errMsg : String)
    (errStatus : Option Nat) (id : String) (created : Nat) (model : String) :
    List CatchAction :=
  if headersSent = false then
    let status := classifyStatus errMsg errStatus
    let errorResponse := buildErrorResponse errMsg status
    if stream then
      if headersSent = false then [CatchAction.jsonError status errorResponse]
      else
        CatchAction.sse (SSEItem.data (createStreamChunk id created model
            (Delta.content ("\n\n[System Error: " ++ errMsg ++ "]")) none)) ::
          (endStream id created model "stop").map CatchAction.sse
    else [CatchAction.jsonError status errorResponse]
  else []

/-! ## server.js: request prelude and auth middleware -/

inductive PreludeResult
  | earlyResponse (status : Nat) (errorField : String)
  | thrown (msg : String)
  | ready (token : Token)
deriving DecidableEq

/-- The start of the `POST /v1/chat/completions` handler: the `messages` guard
returns 400 before anything else runs; only then is `tokenManager.getToken()`
awaited (a falsy token throws). The second component records whether the
credential fetch was reached; the upstream invoker is only ever called after a
`ready` result. -/
def chatCompletionsPrelude (messages : Option (List ClientMessage))
    (fetchedToken : Option Token) : PreludeResult × Bool :=
  match messages with
  | none => (PreludeResult.earlyResponse 400 "messages is required", false)
  | some _ =>
    match fetchedToken with
    | none => (PreludeResult.thrown "没有可用的token，请运行 npm run login 获取token", true)
    | some t => (PreludeResult.ready t, true)

/-- The `/v1/*` API-key middleware: `none` means the request passes
(`next()`), `some (status, body)` is a rejection. An absent configured key and
the empty key are both falsy, disabling the check; a provided header is
stripped of a `"Bearer "` prefix when it has one and compared to the key. -/
def authMiddleware (apiKey : Option String) (authHeader : Option String) :
    Option (Nat × String) :=
  match apiKey with
  | none => none
  | some key =>
    if key = "" then none
    else
      let providedKey : Option String :=
        match authHeader with
        | none => none
        | some h => if jsStartsWith h "Bearer " then some (jsSlice h 7) else some h
      if providedKey = some key then none else some (401, "Invalid API Key")

/-! ## Definitions stated from the claims (spec side, for comparison) -/

/-- Stated from claim C2: the name of the first `functionCall` part whose id
equals the message's `tool_call_id`, found by scanning prior model turns
backward from the most recent. -/
def c2SpecScan (turns : List Turn) (toolCallId : String) : Option String :=
  turns.reverse.findSome? (fun t =>
    if t.role = TurnRole.model then
      t.parts.findSome? (fun p =>
        match p with
        | Part.functionCall fc => if fc.id = toolCallId then some fc.name else none
        | _ => none)
    else none)

/-- Truthy function-call part names: the scan code treats an empty matched
name as "keep scanning", so C2 is stated for turns whose function-call parts
all carry non-empty names (the only kind the translator itself ever sees). -/
def partNameOk : Part → Bool
  | Part.functionCall fc => fc.name != ""
  | _ => true

/-- Stated from claim C4: markers force 429; else a carried status is used;
else 500. -/
def c4SpecStatus (errMsg : String) (errStatus : Option Nat) : Nat :=
  if jsIncludes errMsg "429" || jsIncludes errMsg "capacity" ||
      jsIncludes errMsg "RESOURCE_EXHAUSTED" then 429
  else
    match errStatus with
    | some s => s
    | none => 500

/-- Stated from claim C10: the Authorization header "after optional
`Bearer ` prefix stripping". -/
def stripBearer : Option String → Option String
  | none => none
  | some h => if jsStartsWith h "Bearer " then some (jsSlice h 7) else some h

/-- Stated from claim C5: `a` occurs in `s`, and `b` occurs in `s` at or after
the end of that occurrence of `a` ("contains a and b, in that order"). -/
def containsInOrder (a b s : String) : Bool :=
  s.data.tails.any (fun t => a.data.isPrefixOf t && listInfixOf b.data (t.drop a.data.length))

/-- The user turn pushed for a user message (text part first, then images). -/
def userTurnOf (m : ClientMessage) : Turn :=
  ⟨TurnRole.user,
   Part.text (extractImagesFromContent m.content).text ::
     (extractImagesFromContent m.content).images⟩

/-! ## Supporting lemmas -/

theorem streamLoop_spec (id : String) (created : Nat) (model : String)
    (events : List UpstreamEvent) (b : Bool) :
    streamLoop id created model events b =
      (events.map (fun e => SSEItem.data (createStreamChunk id created model (deltaOfEvent e) none)),
       b || events.any isToolCallsEvent) := by
  induction events generalizing b with
  | nil => simp [streamLoop]
  | cons e rest ih =>
      simp only [streamLoop, ih, List.map_cons, List.any_cons]
      cases hte : isToolCallsEvent e <;> cases b <;> simp

theorem convert_snd (tools : List OpenAITool) :
    (convertOpenAIToolsToAntigravity (some tools)).2 =
      some (tools.map (fun tool =>
        { tool with function :=
            { tool.function with parameters :=
                { tool.function.parameters with schemaField := none } } })) := by
  cases tools with
  | nil => rfl
  | cons t ts => rfl

/-! ## Claims -/

/-- C1 (code_bug evaluation): once the streaming response headers have been
sent (`res.headersSent` is true), the catch handler of
`POST /v1/chat/completions` emits nothing at all — the outer
`!res.headersSent` guard skips the whole block, so no in-band error delta, no
`stop` chunk and no `[DONE]` marker are written, contrary to the claim (and to
the handler's own comments, whose in-band branch is unreachable). -/
theorem c1_catch_after_headers_sent_emits_nothing (stream : Bool) (errMsg : String)
    (errStatus : Option Nat) (id : String) (created : Nat) (model : String) :
    catchHandler true stream errMsg errStatus id created model = [] := by
  simp [catchHandler]

/-- C3: in the streaming path every upstream event yields exactly one chunk,
in arrival order — thinking events in the `reasoning_content` delta field,
plain text in `content`, tool-call events in `tool_calls` (all distinct delta
shapes) — followed by a terminal empty delta whose finish reason is
`tool_calls` when a tool-call delta was seen and `stop` otherwise, then
`[DONE]`; in particular for `[thinking "a", text "b", tool_calls tc1]` the
emitted items are exactly the five listed ones. -/
theorem c3_stream_relay :
    (∀ (id : String) (created : Nat) (model : String) (events : List UpstreamEvent),
       streamResponse id created model events =
         events.map (fun e => SSEItem.data (createStreamChunk id created model (deltaOfEvent e) none)) ++
           [SSEItem.data (createStreamChunk id created model Delta.empty
              (some (if events.any isToolCallsEvent then "tool_calls" else "stop"))),
            SSEItem.done]) ∧
    streamResponse "i" 0 "m"
        [UpstreamEvent.thinking "a", UpstreamEvent.text "b", UpstreamEvent.tool_calls "tc1"] =
      [SSEItem.data ⟨"i", "chat.completion.chunk", 0, "m", Delta.reasoning_content "a", none⟩,
       SSEItem.data ⟨"i", "chat.completion.chunk", 0, "m", Delta.content "b", none⟩,
       SSEItem.data ⟨"i", "chat.completion.chunk", 0, "m", Delta.tool_calls "tc1", none⟩,
       SSEItem.data ⟨"i", "chat.completion.chunk", 0, "m", Delta.empty, some "tool_calls"⟩,
       SSEItem.done] := by
  constructor
  · intro id created model events
    unfold streamResponse
    rw [streamLoop_spec]
    simp [endStream]
  · decide

/-- C6: model alias resolution is a pure total function with exactly the three
listed remappings (including the asymmetric claude pair) and identity on every
other name. -/
theorem c6_model_alias_resolution :
    modelMapping "claude-sonnet-4-5-thinking" = "claude-sonnet-4-5" ∧
    modelMapping "claude-opus-4-5" = "claude-opus-4-5-thinking" ∧
    modelMapping "gemini-2.5-flash-thinking" = "gemini-2.5-flash" ∧
    ∀ m : String, m ≠ "claude-sonnet-4-5-thinking" → m ≠ "claude-opus-4-5" →
      m ≠ "gemini-2.5-flash-thinking" → modelMapping m = m := by
  refine ⟨by decide, by decide, by decide, ?_⟩
  intro m h1 h2 h3
  unfold modelMapping
  rw [if_neg h1, if_neg h2, if_neg h3]

/-- Witness for C6: the identity fallback at the concrete name
`"unknown-model"`. -/
theorem c6_model_alias_resolution_witness :
    "unknown-model" ≠ "claude-sonnet-4-5-thinking" ∧
    "unknown-model" ≠ "claude-opus-4-5" ∧
    "unknown-model" ≠ "gemini-2.5-flash-thinking" ∧
    modelMapping "unknown-model" = "unknown-model" :=
  ⟨by decide, by decide, by decide,
   c6_model_alias_resolution.2.2.2 "unknown-model" (by decide) (by decide) (by decide)⟩

/-- C8: a `POST /v1/chat/completions` body without a `messages` field yields
HTTP 400 with error text `"messages is required"`, and neither the credential
fetch (second component `false`) nor — a fortiori — the upstream invoker is
reached, whatever the token manager would have returned. -/
theorem c8_missing_messages_early_400 (fetchedToken : Option Token) :
    chatCompletionsPrelude none fetchedToken =
      (PreludeResult.earlyResponse 400 "messages is required", false) := rfl

/-- C9: `generateRequestBody` mutates the caller's tool list in place — after
it returns, every supplied tool has lost its `$schema` key while all other
fields are unchanged (the post-state equals a map that only clears
`schemaField`); an absent tool list is left untouched and yields an empty
upstream tool list, as does an empty one. -/
theorem c9_tool_schema_mutation (openaiMessages : List ClientMessage) (modelName : String)
    (parameters : Parameters) (token : Token) (config : AppConfig) (requestId : String)
    (tools : List OpenAITool) :
    (generateRequestBody openaiMessages modelName parameters (some tools) token config requestId).2 =
        some (tools.map (fun tool =>
          { tool with function :=
              { tool.function with parameters :=
                  { tool.function.parameters with schemaField := none } } })) ∧
    ((generateRequestBody openaiMessages modelName parameters (some tools) token config requestId).2.getD []).all
        (fun tool => tool.function.parameters.schemaField.isNone) = true ∧
    (generateRequestBody openaiMessages modelName parameters none token config requestId).2 = none ∧
    (generateRequestBody openaiMessages modelName parameters none token config requestId).1.request.tools = [] ∧
    (generateRequestBody openaiMessages modelName parameters (some []) token config requestId).1.request.tools = [] := by
  refine ⟨convert_snd tools, ?_, rfl, rfl, rfl⟩
  have h2 : (generateRequestBody openaiMessages modelName parameters (some tools) token config requestId).2 =
      (convertOpenAIToolsToAntigravity (some tools)).2 := rfl
  rw [h2, convert_snd]
  simp [List.all_eq_true]

/-- C4: when a failure is caught before response headers are sent (for a
message that is non-empty and a carried status that is truthy, as every real
JS error has), the response is exactly one JSON error whose status follows the
claimed rule — rate-limit/capacity markers force 429, else a carried status is
used, else 500 — and whose body is
`{error: {message, type: "server_error", param: null, code}}` with
`rate_limit_exceeded` exactly at 429 and `internal_error` otherwise. -/
theorem c4_error_classifier (errMsg id model : String) (created : Nat)
    (errStatus : Option Nat) (stream : Bool)
    (hmsg : errMsg ≠ "") (hst : errStatus ≠ some 0) :
    catchHandler false stream errMsg errStatus id created model =
      [CatchAction.jsonError (c4SpecStatus errMsg errStatus)
        ⟨errMsg, "server_error", none,
         if c4SpecStatus errMsg errStatus = 429 then "rate_limit_exceeded"
         else "internal_error"⟩] := by
  have hclass : classifyStatus errMsg errStatus = c4SpecStatus errMsg errStatus := by
    unfold classifyStatus c4SpecStatus
    cases errStatus with
    | none => rfl
    | some s =>
        have hs : s ≠ 0 := fun h => hst (by rw [h])
        simp [hs]
  have hbody : buildErrorResponse errMsg (c4SpecStatus errMsg errStatus) =
      ⟨errMsg, "server_error", none,
       if c4SpecStatus errMsg errStatus = 429 then "rate_limit_exceeded"
       else "internal_error"⟩ := by
    unfold buildErrorResponse
    rw [if_pos hmsg]
  unfold catchHandler
  cases stream <;> simp [hclass, hbody]

/-- Witness for C4: the spec's own error scenario — a failure whose message
contains `RESOURCE_EXHAUSTED`, caught before headers are sent, yields HTTP 429
with code `rate_limit_exceeded`. -/
theorem c4_error_classifier_witness :
    "RESOURCE_EXHAUSTED" ≠ "" ∧ (none : Option Nat) ≠ some 0 ∧
    catchHandler false false "RESOURCE_EXHAUSTED" none "chatcmpl-1" 0 "m" =
      [CatchAction.jsonError 429
        ⟨"RESOURCE_EXHAUSTED", "server_error", none, "rate_limit_exceeded"⟩] := by
  refine ⟨by decide, by decide, ?_⟩
  rw [c4_error_classifier "RESOURCE_EXHAUSTED" "chatcmpl-1" "m" 0 none false
    (by decide) (by decide)]
  decide

/-- C10 counterexample: with configured key `"Bearer xyz"`, the Authorization
header equal to the bare key (`"Bearer xyz"`) is rejected with 401 — the
middleware strips its `"Bearer "` prefix and compares the remainder `"xyz"` to
the key — refuting the claim that a header equal to the bare key is always
accepted. -/
theorem c10_counterexample_bearer_prefixed_key :
    authMiddleware (some "Bearer xyz") (some "Bearer xyz") =
      some (401, "Invalid API Key") := by decide

/-- C10 (amended): with a configured non-empty key, `Bearer <key>` is always
accepted; the bare key is accepted whenever the key does not itself start with
`"Bearer "`; in general the request passes exactly when the header after
optional `Bearer ` stripping equals the key (so an absent header is a 401 with
body `{error: "Invalid API Key"}`); with no configured key (absent or empty)
every request passes. -/
theorem c10_auth_middleware_amended (key : String) (hk : key ≠ "")
    (header : Option String) :
    authMiddleware (some key) (some ("Bearer " ++ key)) = none ∧
    (jsStartsWith key "Bearer " = false → authMiddleware (some key) (some key) = none) ∧
    (authMiddleware (some key) header = none ↔ stripBearer header = some key) ∧
    authMiddleware (some key) none = some (401, "Invalid API Key") ∧
    (∀ h2 : Option String, authMiddleware none h2 = none) ∧
    (∀ h2 : Option String, authMiddleware (some "") h2 = none) := by
  have hpre : jsStartsWith ("Bearer " ++ key) "Bearer " = true := by
    unfold jsStartsWith
    rw [ List.isPrefixOf_iff_prefix]
    exact List.prefix_append _ _
  have hslice : jsSlice ("Bearer " ++ key) 7 = key := by
    unfold jsSlice
    have h7 : (7 : Nat) = "Bearer ".data.length := by decide
    show String.mk (("Bearer ".data ++ key.data).drop 7) = key
    rw [h7, List.drop_left]
  refine ⟨?_, ?_, ?_, ?_, fun h2 => rfl, fun h2 => by simp [authMiddleware]⟩
  · simp [authMiddleware, hk, hpre, hslice]
  · intro hnb
    simp [authMiddleware, hk, hnb]
  · have hM : authMiddleware (some key) header =
        if key = "" then none
        else if stripBearer header = some key then none
        else some (401, "Invalid API Key") := rfl
    rw [hM, if_neg hk]
    split_ifs with he <;> simp [he]
  · simp [authMiddleware, hk]

/-- Witness for C10 (amended): concrete key `"sk-abc"` — `Bearer sk-abc` and
the bare `sk-abc` header both pass. -/
theorem c10_auth_middleware_amended_witness :
    "sk-abc" ≠ "" ∧ jsStartsWith "sk-abc" "Bearer " = false ∧
    authMiddleware (some "sk-abc") (some ("Bearer " ++ "sk-abc")) = none ∧
    authMiddleware (some "sk-abc") (some "sk-abc") = none := by
  have h := c10_auth_middleware_amended "sk-abc" (by decide) (some "sk-abc")
  exact ⟨by decide, by decide, h.1, h.2.1 (by decide)⟩

theorem translateStep_appends (turns : List Turn) (m : ClientMessage)
    (h : m.role ≠ Role.system) :
    ∃ t, translateStep turns m = turns ++ [t] := by
  cases hr : m.role with
  | user =>
      have hs : translateStep turns m =
          handleUserMessage (extractImagesFromContent m.content) turns := by
        unfold translateStep; rw [hr]
      rw [hs]; exact ⟨_, rfl⟩
  | assistant =>
      have hs : translateStep turns m = handleAssistantMessage m turns := by
        unfold translateStep; rw [hr]
      rw [hs]; exact ⟨_, rfl⟩
  | tool =>
      have hs : translateStep turns m = handleToolMessage m turns := by
        unfold translateStep; rw [hr]
      rw [hs]; exact ⟨_, rfl⟩
  | system => exact absurd hr h

theorem foldl_translate_snoc (msgs : List ClientMessage) (m : ClientMessage) :
    openaiMessageToAntigravity (msgs ++ [m]) =
      translateStep (openaiMessageToAntigravity msgs) m := by
  unfold openaiMessageToAntigravity
  rw [List.foldl_append]
  rfl

theorem user_system_fold (msgs : List ClientMessage) (acc : List Turn)
    (h : ∀ m ∈ msgs, m.role = Role.user ∨ m.role = Role.system) :
    msgs.foldl translateStep acc =
      acc ++ (msgs.filter (fun m => m.role == Role.user)).map userTurnOf := by
  induction msgs generalizing acc with
  | nil => simp
  | cons m rest ih =>
      rcases h m (List.mem_cons_self m rest) with hu | hs
      · have hstep : translateStep acc m = acc ++ [userTurnOf m] := by
          unfold translateStep; rw [hu]; rfl
        rw [List.foldl_cons, hstep,
          ih _ (fun x hx => h x (List.mem_cons_of_mem _ hx))]
        simp [List.filter_cons, hu]
      · have hstep : translateStep acc m = acc := by
          unfold translateStep; rw [hs]
        rw [List.foldl_cons, hstep,
          ih _ (fun x hx => h x (List.mem_cons_of_mem _ hx))]
        simp [List.filter_cons, hs]

/-- C7: the translator only appends — every user, assistant or tool message
contributes exactly one new turn at the end of the output (so order mirrors
input order and nothing is dropped or reordered); and a message list with only
user/system roles translates to exactly the user turns, one per user message
in the same relative order, with no model turns at all. -/
theorem c7_translator_order (msgs : List ClientMessage) :
    (∀ m : ClientMessage, m.role ≠ Role.system →
       ∃ t, openaiMessageToAntigravity (msgs ++ [m]) =
         openaiMessageToAntigravity msgs ++ [t]) ∧
    ((∀ m ∈ msgs, m.role = Role.user ∨ m.role = Role.system) →
       openaiMessageToAntigravity msgs =
         (msgs.filter (fun m => m.role == Role.user)).map userTurnOf ∧
       ∀ t ∈ openaiMessageToAntigravity msgs, t.role = TurnRole.user) := by
  constructor
  · intro m hm
    rw [foldl_translate_snoc]
    exact translateStep_appends _ m hm
  · intro h
    have hfold := user_system_fold msgs [] h
    have hmain : openaiMessageToAntigravity msgs =
        (msgs.filter (fun m => m.role == Role.user)).map userTurnOf := by
      simpa [openaiMessageToAntigravity] using hfold
    refine ⟨hmain, ?_⟩
    intro t ht
    rw [hmain] at ht
    obtain ⟨m2, hmem, heq⟩ := List.mem_map.mp ht
    rw [← heq]
    rfl

/-- Witness for C7: a concrete user+assistant pair for the append property and
a concrete user+system list for the per-user-turn property. -/
theorem c7_translator_order_witness :
    (ClientMessage.mk Role.assistant (MsgContent.str "ok") [] "" none).role ≠ Role.system ∧
    (∃ t, openaiMessageToAntigravity
        ([ClientMessage.mk Role.user (MsgContent.str "hi") [] "" none] ++
          [ClientMessage.mk Role.assistant (MsgContent.str "ok") [] "" none]) =
      openaiMessageToAntigravity [ClientMessage.mk Role.user (MsgContent.str "hi") [] "" none] ++ [t]) ∧
    (openaiMessageToAntigravity
        [ClientMessage.mk Role.user (MsgContent.str "hi") [] "" none,
         ClientMessage.mk Role.system (MsgContent.str "sys") [] "" none] =
      ([ClientMessage.mk Role.user (MsgContent.str "hi") [] "" none,
        ClientMessage.mk Role.system (MsgContent.str "sys") [] "" none].filter
          (fun m => m.role == Role.user)).map userTurnOf ∧
     ∀ t ∈ openaiMessageToAntigravity
        [ClientMessage.mk Role.user (MsgContent.str "hi") [] "" none,
         ClientMessage.mk Role.system (MsgContent.str "sys") [] "" none],
       t.role = TurnRole.user) :=
  ⟨by decide,
   (c7_translator_order [ClientMessage.mk Role.user (MsgContent.str "hi") [] "" none]).1
     (ClientMessage.mk Role.assistant (MsgContent.str "ok") [] "" none) (by decide),
   (c7_translator_order
      [ClientMessage.mk Role.user (MsgContent.str "hi") [] "" none,
       ClientMessage.mk Role.system (MsgContent.str "sys") [] "" none]).2 (by decide)⟩

theorem scanTurnParts_eq_findSome (tid : String) (parts : List Part) :
    scanTurnParts tid parts = parts.findSome? (fun p =>
      match p with
      | Part.functionCall fc => if fc.id = tid then some fc.name else none
      | _ => none) := by
  induction parts with
  | nil => rfl
  | cons p rest ih =>
      cases p with
      | functionCall fc =>
          by_cases hid : fc.id = tid <;>
            simp [scanTurnParts, List.findSome?_cons, hid, ih]
      | text t => simp [scanTurnParts, List.findSome?_cons, ih]
      | inlineData d => simp [scanTurnParts, List.findSome?_cons, ih]
      | functionResponse n c => simp [scanTurnParts, List.findSome?_cons, ih]

theorem scanTurnParts_name_ok (tid : String) (parts : List Part)
    (hok : ∀ p ∈ parts, partNameOk p = true) (n : String)
    (h : scanTurnParts tid parts = some n) : n ≠ "" := by
  induction parts with
  | nil => simp [scanTurnParts] at h
  | cons p rest ih =>
      cases p with
      | functionCall fc =>
          by_cases hid : fc.id = tid
          · rw [scanTurnParts, if_pos hid] at h
            have hval := hok (Part.functionCall fc) (List.mem_cons_self _ _)
            simp only [partNameOk, bne_iff_ne, ne_eq] at hval
            cases h
            exact hval
          · rw [scanTurnParts, if_neg hid] at h
            exact ih (fun q hq => hok q (List.mem_cons_of_mem _ hq)) h
      | text t => exact ih (fun q hq => hok q (List.mem_cons_of_mem _ hq)) h
      | inlineData d => exact ih (fun q hq => hok q (List.mem_cons_of_mem _ hq)) h
      | functionResponse nm c => exact ih (fun q hq => hok q (List.mem_cons_of_mem _ hq)) h

theorem scanLoop_eq (tid : String) (l : List Turn)
    (hok : ∀ t ∈ l, ∀ p ∈ t.parts, partNameOk p = true) :
    scanLoop tid l "" =
      (l.findSome? (fun t =>
        if t.role = TurnRole.model then scanTurnParts tid t.parts else none)).getD "" := by
  induction l with
  | nil => rfl
  | cons t rest ih =>
      have ihr := ih (fun x hx => hok x (List.mem_cons_of_mem _ hx))
      by_cases hr : t.role = TurnRole.model
      · cases hsc : scanTurnParts tid t.parts with
        | some n =>
            have hn : n ≠ "" :=
              scanTurnParts_name_ok tid t.parts (hok t (List.mem_cons_self _ _)) n hsc
            simp [scanLoop, hr, hsc, List.findSome?_cons, hn]
        | none =>
            simp [scanLoop, hr, hsc, List.findSome?_cons, ihr]
      · simp [scanLoop, hr, List.findSome?_cons, ihr]

theorem scanFunctionName_eq_spec (turns : List Turn) (tid : String)
    (hok : ∀ t ∈ turns, ∀ p ∈ t.parts, partNameOk p = true) :
    scanFunctionName turns tid = (c2SpecScan turns tid).getD "" := by
  unfold scanFunctionName c2SpecScan
  rw [scanLoop_eq tid turns.reverse (fun t ht => hok t (List.mem_reverse.mp ht))]
  have hfun : (fun t : Turn =>
      if t.role = TurnRole.model then scanTurnParts tid t.parts else none) =
    (fun t : Turn =>
      if t.role = TurnRole.model then
        t.parts.findSome? (fun p =>
          match p with
          | Part.functionCall fc => if fc.id = tid then some fc.name else none
          | _ => none)
      else none) := by
    funext t
    by_cases hr : t.role = TurnRole.model <;> simp [hr, scanTurnParts_eq_findSome]
  rw [hfun]

theorem c2SpecScan_name_ok (turns : List Turn) (tid : String)
    (hok : ∀ t ∈ turns, ∀ p ∈ t.parts, partNameOk p = true) (n : String)
    (h : c2SpecScan turns tid = some n) : n ≠ "" := by
  unfold c2SpecScan at h
  obtain ⟨t, ht, hft⟩ := List.exists_of_findSome?_eq_some h
  have ht2 : t ∈ turns := List.mem_reverse.mp ht
  by_cases hr : t.role = TurnRole.model
  · rw [if_pos hr] at hft
    rw [← scanTurnParts_eq_findSome] at hft
    exact scanTurnParts_name_ok tid t.parts (hok t ht2) n hft
  · rw [if_neg hr] at hft
    cases hft

/-- C2: every tool-role message yields one brand-new user turn (never merged
into a previous turn) whose single part is a `functionResponse`; the resolved
function name is the message's own `name` field when present, otherwise the
name of the first matching `functionCall` part found scanning prior model
turns backward from the most recent, and the `"unknown_tool"` sentinel when no
match exists. Stated for a present `name` that is non-empty and for
accumulated turns whose function-call parts carry non-empty names (the only
values JS truthiness distinguishes, and the only ones the translator itself
produces). -/
theorem c2_tool_turn (turns : List Turn) (m : ClientMessage)
    (hrole : m.role = Role.tool) (hname : m.name ≠ some "")
    (hok : ∀ t ∈ turns, ∀ p ∈ t.parts, partNameOk p = true) :
    translateStep turns m = turns ++
      [⟨TurnRole.user,
        [Part.functionResponse
          (match m.name with
           | some n => n
           | none => (c2SpecScan turns m.tool_call_id).getD "unknown_tool")
          m.content.orEmpty]⟩] := by
  have hstep : translateStep turns m = handleToolMessage m turns := by
    unfold translateStep; rw [hrole]
  rw [hstep]
  unfold handleToolMessage
  cases hn : m.name with
  | some n =>
      have hne : n ≠ "" := fun h => hname (by rw [hn, h])
      simp [hn, hne]
  | none =>
      cases hsc : c2SpecScan turns m.tool_call_id with
      | some n2 =>
          have hn2 : n2 ≠ "" := c2SpecScan_name_ok turns m.tool_call_id hok n2 hsc
          simp [hn, scanFunctionName_eq_spec turns m.tool_call_id hok, hsc, hn2]
      | none =>
          simp [hn, scanFunctionName_eq_spec turns m.tool_call_id hok, hsc]

/-- Witness for C2: one prior model turn holding the call get_weather with id
call1; the tool message with tool_call_id call1 and no name field resolves to
get_weather. -/
theorem c2_tool_turn_witness :
    (ClientMessage.mk Role.tool (MsgContent.str "72F") [] "call1" none).role = Role.tool ∧
    (ClientMessage.mk Role.tool (MsgContent.str "72F") [] "call1" none).name ≠ some "" ∧
    (∀ t ∈ [Turn.mk TurnRole.model [Part.functionCall ⟨"call1", "get_weather"⟩]],
       ∀ p ∈ t.parts, partNameOk p = true) ∧
    translateStep [Turn.mk TurnRole.model [Part.functionCall ⟨"call1", "get_weather"⟩]]
        (ClientMessage.mk Role.tool (MsgContent.str "72F") [] "call1" none) =
      [Turn.mk TurnRole.model [Part.functionCall ⟨"call1", "get_weather"⟩]] ++
        [⟨TurnRole.user,
          [Part.functionResponse
            (match (ClientMessage.mk Role.tool (MsgContent.str "72F") [] "call1" none).name with
             | some n => n
             | none =>
                (c2SpecScan [Turn.mk TurnRole.model [Part.functionCall ⟨"call1", "get_weather"⟩]]
                  (ClientMessage.mk Role.tool (MsgContent.str "72F") [] "call1" none).tool_call_id).getD
                  "unknown_tool")
            (ClientMessage.mk Role.tool (MsgContent.str "72F") [] "call1" none).content.orEmpty]⟩] :=
  ⟨by decide, by decide, by decide,
   c2_tool_turn [Turn.mk TurnRole.model [Part.functionCall ⟨"call1", "get_weather"⟩]]
     (ClientMessage.mk Role.tool (MsgContent.str "72F") [] "call1" none)
     (by decide) (by decide) (by decide)⟩

theorem str_data_append (a b : String) : (a ++ b).data = a.data ++ b.data := rfl

theorem dropWhile_ne_nil_of_mem (p : Char → Bool) (l : List Char) (c : Char)
    (hc : c ∈ l) (hp : p c = false) : l.dropWhile p ≠ [] := by
  induction l with
  | nil => cases hc
  | cons a tl ih =>
      rw [List.dropWhile_cons]
      by_cases ha : p a = true
      · rw [if_pos ha]
        rcases List.mem_cons.mp hc with rfl | hm
        · rw [ha] at hp; cases hp
        · exact ih hm
      · rw [if_neg ha]
        simp

theorem mem_dropWhile_of_mem (p : Char → Bool) (l : List Char) (c : Char)
    (hc : c ∈ l) (hp : p c = false) : c ∈ l.dropWhile p := by
  induction l with
  | nil => cases hc
  | cons a tl ih =>
      rw [List.dropWhile_cons]
      by_cases ha : p a = true
      · rw [if_pos ha]
        rcases List.mem_cons.mp hc with rfl | hm
        · rw [ha] at hp; cases hp
        · exact ih hm
      · rw [if_neg ha]
        exact hc

theorem trimChars_ne_nil (l : List Char) (c : Char) (hc : c ∈ l)
    (hw : c.isWhitespace = false) : trimChars l ≠ [] := by
  unfold trimChars
  intro h
  rw [List.reverse_eq_nil_iff] at h
  have h1 : c ∈ l.dropWhile Char.isWhitespace :=
    mem_dropWhile_of_mem _ _ _ hc hw
  have h2 : c ∈ (l.dropWhile Char.isWhitespace).reverse := List.mem_reverse.mpr h1
  exact dropWhile_ne_nil_of_mem _ _ _ h2 hw h

theorem jsTrim_ne_empty (s : String) (c : Char) (hc : c ∈ s.data)
    (hw : c.isWhitespace = false) : jsTrim s ≠ "" := by
  unfold jsTrim
  intro h
  have hdata : trimChars s.data = [] := congrArg String.data h
  exact trimChars_ne_nil s.data c hc hw hdata

theorem ne_empty_of_mem_data (s : String) (c : Char) (hc : c ∈ s.data) :
    s ≠ "" := by
  intro h
  rw [h] at hc
  cases hc

theorem lbracket_mem_toolDescription (tc : ToolCall) :
    '[' ∈ (toolDescription tc).data := by
  unfold toolDescription
  simp only [str_data_append]
  exact List.mem_append_left _ (List.mem_append_left _ (List.mem_append_left _
    (List.mem_append_left _ (List.mem_append_left _ (List.mem_append_left _ (by decide))))))

theorem mem_joinWith_head (x : String) (xs : List String) (c : Char)
    (hc : c ∈ x.data) : c ∈ (joinWith "\n" (x :: xs)).data := by
  cases xs with
  | nil => exact hc
  | cons y ys =>
      show c ∈ ((x ++ "\n") ++ joinWith "\n" (y :: ys)).data
      simp only [str_data_append]
      exact List.mem_append_left _ (List.mem_append_left _ hc)

/-- C5 counterexample: for the assistant message with content `"XYZ"` and the
single tool call `f(null)`, the translated model turn's text is the content
followed by the note — so the claimed order "a note for each tool call and
the original content, in that order" does not hold on this text (while the
reverse order does), refuting the claim as stated. -/
theorem c5_counterexample_note_before_content :
    openaiMessageToAntigravity
        [⟨Role.assistant, MsgContent.str "XYZ", [⟨"1", ⟨"f", "null"⟩⟩], "", none⟩] =
      [⟨TurnRole.model,
        [Part.text "XYZ\n[System Note: Model requested tool \x27f\x27 with args: null]"]⟩] ∧
    containsInOrder "[System Note: Model requested tool \x27f\x27 with args: null]" "XYZ"
      "XYZ\n[System Note: Model requested tool \x27f\x27 with args: null]" = false ∧
    containsInOrder "XYZ" "[System Note: Model requested tool \x27f\x27 with args: null]"
      "XYZ\n[System Note: Model requested tool \x27f\x27 with args: null]" = true :=
  ⟨by decide, by decide, by decide⟩

/-- C5 (amended): for an assistant message with tool calls and non-empty
content, the translator produces exactly one new model turn with a single
text part whose text is the original content followed by a note for each tool
call, in that order (content first, then the notes in tool-call order); when
the combined content is empty a placeholder text part is substituted; in
every case the new model turn's parts are non-empty. -/
theorem c5_assistant_turn_amended (turns : List Turn) (m : ClientMessage)
    (hrole : m.role = Role.assistant) :
    (m.tool_calls ≠ [] → m.content.orEmpty ≠ "" →
       translateStep turns m = turns ++
         [⟨TurnRole.model,
           [Part.text (m.content.orEmpty ++ "\n" ++
              joinWith "\n" (m.tool_calls.map toolDescription))]⟩]) ∧
    (m.tool_calls = [] → m.content.orEmpty = "" →
       translateStep turns m = turns ++ [⟨TurnRole.model, [Part.text "..."]⟩]) ∧
    (∃ parts, parts ≠ [] ∧ translateStep turns m = turns ++ [⟨TurnRole.model, parts⟩]) := by
  have hstep : translateStep turns m = handleAssistantMessage m turns := by
    unfold translateStep; rw [hrole]
  refine ⟨?_, ?_, ?_⟩
  · intro htc hc
    have hbr : '[' ∈ (m.content.orEmpty ++ "\n" ++
        joinWith "\n" (m.tool_calls.map toolDescription)).data := by
      cases hmt : m.tool_calls with
      | nil => exact absurd hmt htc
      | cons tc tcs =>
          have h1 : '[' ∈ (joinWith "\n" (toolDescription tc :: tcs.map toolDescription)).data :=
            mem_joinWith_head _ _ _ (lbracket_mem_toolDescription tc)
          simp only [str_data_append, List.map_cons]
          exact List.mem_append_right _ h1
    have hne : (m.content.orEmpty ++ "\n" ++
        joinWith "\n" (m.tool_calls.map toolDescription)) ≠ "" :=
      ne_empty_of_mem_data _ '[' hbr
    have htr : jsTrim (m.content.orEmpty ++ "\n" ++
        joinWith "\n" (m.tool_calls.map toolDescription)) ≠ "" :=
      jsTrim_ne_empty _ '[' hbr (by decide)
    rw [hstep]
    unfold handleAssistantMessage
    simp [htc, hc, hne, htr]
  · intro htc hc
    rw [hstep]
    unfold handleAssistantMessage
    simp [htc, hc]
  · rw [hstep]
    unfold handleAssistantMessage
    refine ⟨_, ?_, rfl⟩
    split_ifs <;> simp

/-- Witness for C5 (amended): the concrete assistant message with content
`"XYZ"` and one tool call. -/
theorem c5_assistant_turn_amended_witness :
    (ClientMessage.mk Role.assistant (MsgContent.str "XYZ")
        [⟨"1", ⟨"f", "null"⟩⟩] "" none).role = Role.assistant ∧
    (ClientMessage.mk Role.assistant (MsgContent.str "XYZ")
        [⟨"1", ⟨"f", "null"⟩⟩] "" none).tool_calls ≠ [] ∧
    (ClientMessage.mk Role.assistant (MsgContent.str "XYZ")
        [⟨"1", ⟨"f", "null"⟩⟩] "" none).content.orEmpty ≠ "" ∧
    translateStep []
        (ClientMessage.mk Role.assistant (MsgContent.str "XYZ")
          [⟨"1", ⟨"f", "null"⟩⟩] "" none) =
      [] ++ [⟨TurnRole.model,
        [Part.text ((ClientMessage.mk Role.assistant (MsgContent.str "XYZ")
            [⟨"1", ⟨"f", "null"⟩⟩] "" none).content.orEmpty ++ "\n" ++
          joinWith "\n" ((ClientMessage.mk Role.assistant (MsgContent.str "XYZ")
            [⟨"1", ⟨"f", "null"⟩⟩] "" none).tool_calls.map toolDescription))]⟩] :=
  ⟨by decide, by decide, by decide,
   (c5_assistant_turn_amended []
      (ClientMessage.mk Role.assistant (MsgContent.str "XYZ")
        [⟨"1", ⟨"f", "null"⟩⟩] "" none) (by decide)).1 (by decide) (by decide)⟩

end CatfishAntigravity
